import Mathlib

/-!
Verification development for the distributed-training coordination script
`pytorch/native/pytorch_distributed_run_example.py`.

The Python source is shallowly embedded here: environment access becomes an
explicit map from variable names to optional strings, the filesystem state of
the single output path becomes a small inductive type, the per-step and
per-epoch control flow becomes lists of operations and folds over batch data,
and the rank-0 checkpoint handshake becomes a small-step semantics over the
program counters of all ranks with a barrier guard.  Real numbers produced by
loss computations are modelled as rationals.
-/

/-- Errors raised while resolving the rank identity from the launch
environment: a required environment variable is absent (Python `KeyError`
from `os.environ[...]`) or its value is not an integer literal (Python
`ValueError` from `int(...)`). -/
inductive ConfigError where
  | missingEnv (key : String)
  | nonInteger (key : String) (value : String)
deriving DecidableEq, Repr

/-- Digit-string reading used by the integer parser: the character list must
be nonempty and all decimal digits. -/
def digitsToNat (cs : List Char) : Option Nat :=
  if cs = [] then none
  else if cs.all Char.isDigit then
    some (cs.foldl (fun a c => a * 10 + (c.toNat - 48)) 0)
  else none

/-- Python `int(s)` on a string: surrounding whitespace is stripped, an
optional sign is allowed, and the remainder must be a nonempty digit string. -/
def parsePyInt (s : String) : Option Int :=
  let cs :=
    ((s.data.dropWhile Char.isWhitespace).reverse.dropWhile Char.isWhitespace).reverse
  match cs with
  | '-' :: rest => (digitsToNat rest).map (fun n => -(n : Int))
  | '+' :: rest => (digitsToNat rest).map (fun n => (n : Int))
  | _ => (digitsToNat cs).map (fun n => (n : Int))

/-- `int(os.environ[key])`: fails if `key` is unset or its value does not
parse as an integer. -/
def getIntEnv (env : String → Option String) (key : String) : Except ConfigError Int :=
  match env key with
  | none => Except.error (ConfigError.missingEnv key)
  | some s =>
    match parsePyInt s with
    | none => Except.error (ConfigError.nonInteger key s)
    | some v => Except.ok v

/-- The triple printed as "(local_rank, global_rank, world_size)" in `main`.
`local_rank` is optional because in legacy mode it comes from the
`--local_rank` command-line flag, whose argparse default is `None`. -/
structure RankIdentity where
  local_rank : Option Int
  global_rank : Int
  world_size : Int
deriving DecidableEq, Repr

/-- Lines 58-93 of `main`: with `--use-older-api` absent (modern mode) the
three values are read from the `OMPI_COMM_WORLD_*` environment variables and
the command line is not consulted; with it present (legacy mode) the local
rank is `args.local_rank` from the command line and the other two come from
`RANK` and `WORLD_SIZE`.  No range validation is performed on any value. -/
def resolve (use_older_api : Bool) (cliLocalRank : Option Int)
    (env : String → Option String) : Except ConfigError RankIdentity :=
  if !use_older_api then
    match getIntEnv env "OMPI_COMM_WORLD_LOCAL_RANK" with
    | Except.error err => Except.error err
    | Except.ok l =>
      match getIntEnv env "OMPI_COMM_WORLD_RANK" with
      | Except.error err => Except.error err
      | Except.ok g =>
        match getIntEnv env "OMPI_COMM_WORLD_SIZE" with
        | Except.error err => Except.error err
        | Except.ok w => Except.ok ⟨some l, g, w⟩
  else
    match getIntEnv env "RANK" with
    | Except.error err => Except.error err
    | Except.ok g =>
      match getIntEnv env "WORLD_SIZE" with
      | Except.error err => Except.error err
      | Except.ok w => Except.ok ⟨cliLocalRank, g, w⟩

/-- A concrete modern-mode environment whose local rank value is the
out-of-range integer -1 (the other two values are in range). -/
def envNegLocal : String → Option String := fun k =>
  if k = "OMPI_COMM_WORLD_LOCAL_RANK" then some "-1"
  else if k = "OMPI_COMM_WORLD_RANK" then some "0"
  else if k = "OMPI_COMM_WORLD_SIZE" then some "1"
  else none

/-- A concrete modern-mode environment with in-range values (3, 5, 8). -/
def envModernOk : String → Option String := fun k =>
  if k = "OMPI_COMM_WORLD_LOCAL_RANK" then some "3"
  else if k = "OMPI_COMM_WORLD_RANK" then some "5"
  else if k = "OMPI_COMM_WORLD_SIZE" then some "8"
  else none

/-- A concrete legacy-mode environment with `RANK=2`, `WORLD_SIZE=4`. -/
def envLegacyOk : String → Option String := fun k =>
  if k = "RANK" then some "2"
  else if k = "WORLD_SIZE" then some "4"
  else none

/-- A concrete modern-mode environment where the local-rank variable holds a
non-integral string. -/
def envBadLocal : String → Option String := fun k =>
  if k = "OMPI_COMM_WORLD_LOCAL_RANK" then some "zero"
  else if k = "OMPI_COMM_WORLD_RANK" then some "0"
  else if k = "OMPI_COMM_WORLD_SIZE" then some "1"
  else none

/-- The empty environment. -/
def envEmpty : String → Option String := fun _ => none

/-- A required environment variable is absent, or present but non-integral —
the two conditions under which `int(os.environ[key])` raises. -/
def badEnvVar (env : String → Option String) (key : String) : Prop :=
  env key = none ∨ ∃ s, env key = some s ∧ parsePyInt s = none

/-- A concrete modern-mode environment where the middle variable,
`OMPI_COMM_WORLD_RANK`, is the absent one. -/
def envBadRank : String → Option String := fun k =>
  if k = "OMPI_COMM_WORLD_LOCAL_RANK" then some "0"
  else if k = "OMPI_COMM_WORLD_SIZE" then some "2"
  else none

/-- A concrete legacy-mode environment where `WORLD_SIZE` holds a
non-integral value. -/
def envLegacyBad : String → Option String := fun k =>
  if k = "RANK" then some "2"
  else if k = "WORLD_SIZE" then some "x"
  else none

/-- A concrete environment carrying all five variables of both modes, with
the out-of-range modern local rank -1. -/
def envAllOk : String → Option String := fun k =>
  if k = "OMPI_COMM_WORLD_LOCAL_RANK" then some "-1"
  else if k = "OMPI_COMM_WORLD_RANK" then some "0"
  else if k = "OMPI_COMM_WORLD_SIZE" then some "1"
  else if k = "RANK" then some "7"
  else if k = "WORLD_SIZE" then some "3"
  else none

/-- State of the single filesystem path of interest (`args.output_path`). -/
inductive FSEntry where
  | absent
  | file
  | dir
deriving DecidableEq, Repr

/-- Filesystem writes the program can perform on the output path: directory
creation (`os.makedirs`) and model serialization (`torch.save`). -/
inductive FSWrite where
  | makedirs
  | saveModel
deriving DecidableEq, Repr

/-- The fatal error raised at line 111 of `main` when the output path exists
but is not a directory. -/
inductive OutputPathError where
  | notADirectory
deriving DecidableEq, Repr

/-- Lines 107-113 of `main` (rank-0 branch): if the path does not exist,
`os.makedirs` creates it as a directory; then if it is still not a directory a
fatal error is raised.  Returns the writes performed so far together with
either the final entry or the error. -/
def prepareOutputPath (e : FSEntry) : List FSWrite × Except OutputPathError FSEntry :=
  let step1 :=
    if e = FSEntry.absent then (FSEntry.dir, [FSWrite.makedirs]) else (e, [])
  if step1.1 ≠ FSEntry.dir then (step1.2, Except.error OutputPathError.notADirectory)
  else (step1.2, Except.ok step1.1)

/-- Rank 0's writes on the output path over a whole run: the preparation
block at lines 107-113, and — only if it succeeded — the model serialization
at lines 235-236 after training.  The second component is the error, if any. -/
def rank0Run (e : FSEntry) : List FSWrite × Option OutputPathError :=
  match prepareOutputPath e with
  | (ws, Except.error err) => (ws, some err)
  | (ws, Except.ok _) => (ws ++ [FSWrite.saveModel], none)

/-- Writes performed on the output path by an arbitrary rank: ranks other
than 0 skip both the preparation block (guard at line 107) and the save
(guard at line 234), so they never check or write the output path. -/
def rankRunWrites (rank : Nat) (e : FSEntry) : List FSWrite × Option OutputPathError :=
  if rank = 0 then rank0Run e else ([], none)

/-- `os.path.join(output_path, "model.pth")` from line 235, for paths that do
not already end in a separator. -/
def model_filepath (output_path : String) : String :=
  if output_path = "" then "model.pth" else output_path ++ "/" ++ "model.pth"

/-- The operations of one training step, lines 163-170 of `main`, in program
order.  The gradient all-reduce performed by DistributedDataParallel runs
inside `backward` and has completed when `backward` returns; following the
design it is modelled as the explicit `gradientSync` operation placed after
`backward` and before the optimizer step. -/
inductive TrainOp where
  | zeroGrad
  | forward
  | lossCompute
  | backward
  | gradientSync
  | optimizerStep
  | scalerUpdate
deriving DecidableEq, Repr

/-- The body of the inner loop at lines 152-170 as an operation sequence. -/
def stepOps : List TrainOp :=
  [TrainOp.zeroGrad, TrainOp.forward, TrainOp.lossCompute, TrainOp.backward,
   TrainOp.gradientSync, TrainOp.optimizerStep, TrainOp.scalerUpdate]

/-- The training operations of a whole run with `E` epochs of `B` steps each,
tagged with (epoch, step): the epoch loop at line 136 around the batch loop
at line 152. -/
def runOps (E B : Nat) : List (Nat × Nat × TrainOp) :=
  (List.range E).flatMap (fun e =>
    (List.range B).flatMap (fun i => stepOps.map (fun op => (e, i, op))))

/-- Semantics of the gradient all-reduce-mean performed by
DistributedDataParallel during `backward`: every rank contributes its local
gradient and receives the mean. -/
def gradientSync (contribs : List ℚ) : ℚ :=
  contribs.sum / (contribs.length : ℚ)

/-- The SGD update applied by `scaler.step(optimizer)` at line 169, consuming
a gradient value. -/
def optimizerStep (w lr g : ℚ) : ℚ := w - lr * g

/-- One training step's parameter update: the optimizer consumes the
synchronized gradient produced by `gradientSync`, never a raw local one. -/
def trainStepUpdate (contribs : List ℚ) (w lr : ℚ) : ℚ :=
  optimizerStep w lr (gradientSync contribs)

/-- Per-epoch rank-local training bookkeeping: the loop index `i` and the
running loss accumulator `running_loss` of lines 147 and 152-184, together
with the epoch index. -/
structure EpochState where
  epochIndex : Nat
  runningLossSum : ℚ
  stepCount : Nat
deriving DecidableEq, Repr

/-- State at the top of an epoch: `running_loss = 0.0` (line 147) and the
loop index not yet advanced. -/
def epochInit (epoch : Nat) : EpochState := ⟨epoch, 0, 0⟩

/-- Lines 172-184, the bookkeeping tail of one loop iteration: ranks other
than 0 `continue` (only the loop index advances); rank 0 adds the step loss
to `running_loss` and, when `i % logging_interval == logging_interval - 1`,
emits the running average `running_loss / (i+1)`. -/
def stepBookkeeping (rank logging_interval : Nat) (st : EpochState) (loss : ℚ) :
    EpochState × List ℚ :=
  if rank ≠ 0 then (⟨st.epochIndex, st.runningLossSum, st.stepCount + 1⟩, [])
  else
    let rl := st.runningLossSum + loss
    let i := st.stepCount
    (⟨st.epochIndex, rl, i + 1⟩,
     if i % logging_interval = logging_interval - 1 then [rl / ((i : ℚ) + 1)] else [])

/-- One epoch of the training loop for one rank, threading the parameter
value, the bookkeeping state and the emitted progress reports.  Each batch
carries the gradient contributions of all ranks for that step (identical
input on every rank, exchanged by the all-reduce) and this rank's local loss
value.  The parameter update (lines 163-170) is unconditional; only the
bookkeeping is rank-conditional. -/
def runEpochTraining (rank logging_interval : Nat) (lr w0 : ℚ) (epoch : Nat)
    (batches : List (List ℚ × ℚ)) : ℚ × EpochState × List ℚ :=
  batches.foldl
    (fun acc b =>
      (trainStepUpdate b.1 acc.1 lr,
       (stepBookkeeping rank logging_interval acc.2.1 b.2).1,
       acc.2.2 ++ (stepBookkeeping rank logging_interval acc.2.1 b.2).2))
    (w0, epochInit epoch, [])

/-- The progress reports the spec describes for rank 0: at every step index
`i` with `i % logging_interval = logging_interval - 1`, the average of the
first `i+1` step losses. -/
def expectedReports (logging_interval : Nat) (losses : List ℚ) : List ℚ :=
  (List.range losses.length).filterMap (fun i =>
    if i % logging_interval = logging_interval - 1 then
      some (((losses.take (i + 1)).sum) / ((i : ℚ) + 1))
    else none)

/-- Operations at the start of an epoch and through its step loop, lines
136-184 of `main`.  `barrier` is in the lexicon because the program does call
`dist.barrier` elsewhere; the epoch sequence itself must not contain it. -/
inductive EpochPhaseOp where
  | logEpochHeader
  | setEpoch (e : Nat)
  | resetRunningLoss
  | startTimer
  | trainStep (i : Nat)
  | barrier
deriving DecidableEq, Repr

/-- Whether an epoch-phase operation is a barrier. -/
def isBarrierOp : EpochPhaseOp → Bool
  | EpochPhaseOp.barrier => true
  | _ => false

/-- The per-epoch operation sequence of lines 136-184: optional rank-0
header print, `sampler.set_epoch(epoch)`, the `running_loss = 0.0` reset,
the timer start, then the `numBatches` training steps. -/
def epochPhaseOps (rank epoch numBatches : Nat) : List EpochPhaseOp :=
  (if rank = 0 then [EpochPhaseOp.logEpochHeader] else []) ++
    [EpochPhaseOp.setEpoch epoch, EpochPhaseOp.resetRunningLoss, EpochPhaseOp.startTimer] ++
    (List.range numBatches).map EpochPhaseOp.trainStep

/-- The bookkeeping of rank `r` in an `N`-rank system: each rank folds only
over its own loss sequence; no other rank's state enters.  This is the
system-level reading of the per-rank loop. -/
def systemBookkeeping (N logging_interval epoch : Nat) (lossesOf : Fin N → List ℚ)
    (r : Fin N) : EpochState × List ℚ :=
  (lossesOf r).foldl
    (fun acc loss =>
      ((stepBookkeeping r.val logging_interval acc.1 loss).1,
       acc.2 ++ (stepBookkeeping r.val logging_interval acc.1 loss).2))
    (epochInit epoch, [])

/-- Local validation statistic of one rank, lines 190-199: `running_valloss`
is the sum of per-batch loss values and `n_valiter = len(valloader)` is the
number of validation batches of the rank's shard. -/
structure ValidationStat where
  lossSum : ℚ
  sampleCount : Nat
deriving DecidableEq, Repr

/-- The local validation pass (lines 190-199) over the per-batch loss values
of this rank's shard. -/
def localValidation (batchLosses : List ℚ) : ValidationStat :=
  ⟨batchLosses.sum, batchLosses.length⟩

/-- Semantics of `dist.all_reduce` (default sum) on the two-element tensor
`[running_valloss, n_valiter]` of line 203: every rank receives the
element-wise sum of all ranks' contributions. -/
def allReduceSumPair (contribs : List (ℚ × ℚ)) : ℚ × ℚ :=
  ((contribs.map Prod.fst).sum, (contribs.map Prod.snd).sum)

/-- The aggregated validation statistic as observed by rank `r` after the
all-reduce at lines 203-206 (the same value on every rank). -/
def globalValidationStat (stats : List ValidationStat) (_r : Nat) : ℚ × ℚ :=
  allReduceSumPair (stats.map (fun s => (s.lossSum, (s.sampleCount : ℚ))))

/-- The global mean validation loss printed by rank 0 at line 229:
`running_valloss / n_valiter` after the all-reduce. -/
def globalMeanValLoss (stats : List ValidationStat) : ℚ :=
  (globalValidationStat stats 0).1 / (globalValidationStat stats 0).2

/-- Actions of the finalize phase, lines 234-270 of `main`: the model save,
log prints, the barrier, and the process-group teardown. -/
inductive FinAction where
  | save
  | log
  | barrier
  | destroy
deriving DecidableEq, Repr

/-- The finalize-phase program of one rank.  Rank 0 (lines 234-251) saves the
model, prints, passes the barrier, prints; every other rank (lines 252-266)
prints, passes the barrier, prints.  All ranks then destroy the process group
and print "done." (lines 268-270). -/
def finalizeProg (rank : Nat) : List FinAction :=
  if rank = 0 then
    [FinAction.save, FinAction.log, FinAction.barrier, FinAction.log,
     FinAction.destroy, FinAction.log]
  else
    [FinAction.log, FinAction.barrier, FinAction.log, FinAction.destroy, FinAction.log]

/-- Position of the barrier in each rank's finalize program. -/
def barrierIdx (rank : Nat) : Nat := if rank = 0 then 2 else 1

/-- Interleaving semantics of the finalize phase for an `N`-rank system.  A
configuration maps each rank to its program counter.  Any rank may execute
its next action, except that a barrier action may complete only once every
rank has reached its own barrier (the blocking-collective semantics of
`dist.barrier`). -/
inductive FinStep (N : Nat) : (Nat → Nat) → (Nat → Nat) → Prop where
  | advance (pcs : Nat → Nat) (r : Nat) (hr : r < N)
      (hlt : pcs r < (finalizeProg r).length)
      (hbar : (finalizeProg r).get ⟨pcs r, hlt⟩ = FinAction.barrier →
        ∀ s, s < N → barrierIdx s ≤ pcs s) :
      FinStep N pcs (Function.update pcs r (pcs r + 1))

/-- Configurations reachable from the start of the finalize phase, where
every rank's program counter is 0. -/
inductive FinReachable (N : Nat) : (Nat → Nat) → Prop where
  | init : FinReachable N (fun _ => 0)
  | step (pcs pcs' : Nat → Nat) :
      FinReachable N pcs → FinStep N pcs pcs' → FinReachable N pcs'

/-- The save has been executed in a configuration: rank 0's executed prefix
contains the save action. -/
def saveDone (pcs : Nat → Nat) : Prop :=
  FinAction.save ∈ (finalizeProg 0).take (pcs 0)

/-- Total number of save actions across all ranks' finalize programs. -/
def totalSaves (N : Nat) : Nat :=
  ((List.range N).map (fun r => (finalizeProg r).count FinAction.save)).sum

/-- State of the process-group handle.  Modelled from the spec: the
implementation of `leave` is `torch.distributed.destroy_process_group`,
external library code with no source in this repository; the spec gives its
contract (release the communication context; idempotent; no-op when already
released). -/
inductive PGState where
  | joined
  | released
deriving DecidableEq, Repr

/-- Modelled from the spec: `leave` releases the communication context and
reports no error; on an already-released handle it is a no-op, not an
error.  The second component records whether an error was raised. -/
def leave (s : PGState) : PGState × Bool :=
  match s with
  | PGState.joined => (PGState.released, false)
  | PGState.released => (PGState.released, false)

/-- `_check_pytorch_version`, lines 34-39: from the first two components of
the version, the check fails iff the major version is not 1 or 2. -/
def check_pytorch_version (version_info : Nat × Nat) : Bool :=
  if ¬(version_info.1 = 1 ∨ version_info.1 = 2) then false else true

/-- Startup operations of `main` before the training loop, lines 43-93, in
program order. -/
inductive StartupOp where
  | setStartMethod
  | versionCheck
  | parseArgs
  | initProcessGroup
  | rankResolve
deriving DecidableEq, Repr

/-- Startup of `main`, lines 43-93: the start-method change, the version
check — raising a fatal error and stopping unless the major version is 1 or
2 — then argument parsing, and then (order depending on the API flag) the
process-group join and the rank resolution.  Returns the executed operations
and the fatal error message, if any. -/
def startupTrace (major minor : Nat) (use_older_api : Bool) :
    List StartupOp × Option String :=
  let pre := [StartupOp.setStartMethod, StartupOp.versionCheck]
  if check_pytorch_version (major, minor) = false then
    (pre, some "Your PyTorch version is not expected in this example code.1.x or 2.x are required.")
  else if !use_older_api then
    (pre ++ [StartupOp.parseArgs, StartupOp.initProcessGroup, StartupOp.rankResolve], none)
  else
    (pre ++ [StartupOp.parseArgs, StartupOp.rankResolve, StartupOp.initProcessGroup], none)

/-- The barrier-crossing invariant of the finalize phase: once any rank is
strictly past its barrier, every rank has at least reached its barrier. -/
def FinInv (N : Nat) (pcs : Nat → Nat) : Prop :=
  ∀ r, r < N → barrierIdx r < pcs r → ∀ s, s < N → barrierIdx s ≤ pcs s

example : resolve false none envModernOk = Except.ok ⟨some 3, 5, 8⟩ := rfl
example : resolve true (some 1) envLegacyOk = Except.ok ⟨some 1, 2, 4⟩ := rfl
example : resolve false none envNegLocal = Except.ok ⟨some (-1), 0, 1⟩ := rfl
example : resolve false none envEmpty
    = Except.error (ConfigError.missingEnv "OMPI_COMM_WORLD_LOCAL_RANK") := rfl
example : resolve false none envBadLocal
    = Except.error (ConfigError.nonInteger "OMPI_COMM_WORLD_LOCAL_RANK" "zero") := rfl

lemma get_eq_of_idx_eq {α : Type} (l : List α) (i j : Nat) (hi : i < l.length)
    (h : i = j) : ∃ hj : j < l.length, l.get ⟨i, hi⟩ = l.get ⟨j, hj⟩ := by
  subst h; exact ⟨hi, rfl⟩

/-- Claim C9: `leave` is idempotent — applying it to an already-released
handle (in particular, to the result of a first `leave`) is a no-op that
reports no error and leaves the state released. -/
theorem c9_leave_idempotent (s : PGState) :
    leave (leave s).1 = leave s
    ∧ leave PGState.released = (PGState.released, false)
    ∧ (leave s).2 = false := by
  cases s <;> simp [leave]

/-- Claim C10: startup checks the PyTorch major version before parsing
configuration and before any process-group join; when the major version is 1
or 2 the error branch is not taken and startup proceeds through argument
parsing to rank resolution, and otherwise a fatal error is raised with
neither `parse_args` nor `init_process_group` executed. -/
theorem c10_version_gate (major1 minor1 major2 minor2 : Nat) (api : Bool)
    (hok : major1 = 1 ∨ major1 = 2) (hbad : major2 ≠ 1 ∧ major2 ≠ 2) :
    (startupTrace major1 minor1 api).2 = none
    ∧ (∃ tail, (startupTrace major1 minor1 api).1 =
        [StartupOp.setStartMethod, StartupOp.versionCheck, StartupOp.parseArgs] ++ tail)
    ∧ StartupOp.rankResolve ∈ (startupTrace major1 minor1 api).1
    ∧ check_pytorch_version (major1, minor1) = true
    ∧ (startupTrace major2 minor2 api).1 = [StartupOp.setStartMethod, StartupOp.versionCheck]
    ∧ (startupTrace major2 minor2 api).2 ≠ none
    ∧ StartupOp.parseArgs ∉ (startupTrace major2 minor2 api).1
    ∧ StartupOp.initProcessGroup ∉ (startupTrace major2 minor2 api).1 := by
  have hchk : check_pytorch_version (major1, minor1) = true := by
    rcases hok with h | h <;> simp [check_pytorch_version, h]
  have hchk2 : check_pytorch_version (major2, minor2) = false := by
    simp [check_pytorch_version, hbad.1, hbad.2]
  cases api <;>
    simp [startupTrace, hchk, hchk2]

/-- Witness for C10 at concrete versions 2.1 (accepted) and 3.0 (rejected). -/
theorem c10_version_gate_witness :
    ((2 : Nat) = 1 ∨ (2 : Nat) = 2) ∧ ((3 : Nat) ≠ 1 ∧ (3 : Nat) ≠ 2)
    ∧ ((startupTrace 2 1 false).2 = none
      ∧ (∃ tail, (startupTrace 2 1 false).1 =
          [StartupOp.setStartMethod, StartupOp.versionCheck, StartupOp.parseArgs] ++ tail)
      ∧ StartupOp.rankResolve ∈ (startupTrace 2 1 false).1
      ∧ check_pytorch_version (2, 1) = true
      ∧ (startupTrace 3 0 false).1 = [StartupOp.setStartMethod, StartupOp.versionCheck]
      ∧ (startupTrace 3 0 false).2 ≠ none
      ∧ StartupOp.parseArgs ∉ (startupTrace 3 0 false).1
      ∧ StartupOp.initProcessGroup ∉ (startupTrace 3 0 false).1) :=
  ⟨Or.inr rfl, by decide,
   c10_version_gate 2 1 3 0 false (Or.inr rfl) (by decide)⟩

/-- Claim C3: when the output path pre-exists as a regular file, rank 0's
finalize-side output handling fails with the output-path error having
performed no filesystem write (in particular no model serialization), while
every other rank performs no check or write on the output path.  For
contrast, the absent and directory cases succeed and end with exactly the
expected writes. -/
theorem c3_output_path_regular_file (r : Nat) (hr : r ≠ 0) :
    rank0Run FSEntry.file = ([], some OutputPathError.notADirectory)
    ∧ rankRunWrites 0 FSEntry.file = ([], some OutputPathError.notADirectory)
    ∧ rankRunWrites r FSEntry.file = ([], none)
    ∧ rank0Run FSEntry.dir = ([FSWrite.saveModel], none)
    ∧ rank0Run FSEntry.absent = ([FSWrite.makedirs, FSWrite.saveModel], none) := by
  refine ⟨rfl, rfl, ?_, rfl, rfl⟩
  simp [rankRunWrites, hr]

/-- Witness for C3 at the concrete non-zero rank 1. -/
theorem c3_output_path_regular_file_witness :
    (1 : Nat) ≠ 0
    ∧ (rank0Run FSEntry.file = ([], some OutputPathError.notADirectory)
      ∧ rankRunWrites 0 FSEntry.file = ([], some OutputPathError.notADirectory)
      ∧ rankRunWrites 1 FSEntry.file = ([], none)
      ∧ rank0Run FSEntry.dir = ([FSWrite.saveModel], none)
      ∧ rank0Run FSEntry.absent = ([FSWrite.makedirs, FSWrite.saveModel], none)) :=
  ⟨by decide, c3_output_path_regular_file 1 (by decide)⟩

lemma getIntEnv_parsed (env : String → Option String) (key s : String) (v : Int)
    (h1 : env key = some s) (h2 : parsePyInt s = some v) :
    getIntEnv env key = Except.ok v := by
  simp [getIntEnv, h1, h2]

/-- Claim C4: in modern mode `resolve` derives all three values from the
launcher environment variables and never consults the command-line rank
(changing the command-line value leaves the result unchanged); in legacy mode
the local rank comes from the `--local_rank` flag and the other two from the
environment; in both modes values present in those sources are returned
unchanged. -/
theorem c4_bootstrap_modes (envM envL : String → Option String)
    (cli cli2 clv : Option Int) (l g w g2 w2 : Int) (sl sg sw sg2 sw2 : String)
    (h1 : envM "OMPI_COMM_WORLD_LOCAL_RANK" = some sl) (h2 : parsePyInt sl = some l)
    (h3 : envM "OMPI_COMM_WORLD_RANK" = some sg) (h4 : parsePyInt sg = some g)
    (h5 : envM "OMPI_COMM_WORLD_SIZE" = some sw) (h6 : parsePyInt sw = some w)
    (h7 : envL "RANK" = some sg2) (h8 : parsePyInt sg2 = some g2)
    (h9 : envL "WORLD_SIZE" = some sw2) (h10 : parsePyInt sw2 = some w2) :
    resolve false cli envM = Except.ok ⟨some l, g, w⟩
    ∧ resolve false cli envM = resolve false cli2 envM
    ∧ resolve true clv envL = Except.ok ⟨clv, g2, w2⟩ := by
  refine ⟨?_, rfl, ?_⟩
  · simp [resolve, getIntEnv_parsed envM _ _ _ h1 h2, getIntEnv_parsed envM _ _ _ h3 h4,
      getIntEnv_parsed envM _ _ _ h5 h6]
  · simp [resolve, getIntEnv_parsed envL _ _ _ h7 h8, getIntEnv_parsed envL _ _ _ h9 h10]

/-- Witness for C4 at the concrete environments `envModernOk` (3, 5, 8) and
`envLegacyOk` (RANK=2, WORLD_SIZE=4) with legacy local rank 1. -/
theorem c4_bootstrap_modes_witness :
    envModernOk "OMPI_COMM_WORLD_LOCAL_RANK" = some "3"
    ∧ parsePyInt "3" = some 3
    ∧ (resolve false none envModernOk = Except.ok ⟨some 3, 5, 8⟩
      ∧ resolve false none envModernOk = resolve false (some 99) envModernOk
      ∧ resolve true (some 1) envLegacyOk = Except.ok ⟨some 1, 2, 4⟩) :=
  ⟨rfl, rfl,
   c4_bootstrap_modes envModernOk envLegacyOk none (some 99) (some 1) 3 5 8 2 4
     "3" "5" "8" "2" "4" rfl rfl rfl rfl rfl rfl rfl rfl rfl rfl⟩

/-- Counterexample to claim C5 as stated: the claim requires `resolve` to
fail on any out-of-range value, but on an environment giving the local rank
the out-of-range value -1 (with globalRank 0 and worldSize 1 in range) the
code returns the triple unchanged instead of failing. -/
theorem c5_counterexample_no_range_check :
    resolve false none envNegLocal = Except.ok ⟨some (-1), 0, 1⟩
    ∧ ((-1 : Int) < 0) := ⟨rfl, by decide⟩

lemma getIntEnv_bad (env : String → Option String) (key : String)
    (hb : badEnvVar env key) : ∃ err, getIntEnv env key = Except.error err := by
  rcases hb with h | ⟨s, hs, hp⟩
  · exact ⟨ConfigError.missingEnv key, by simp [getIntEnv, h]⟩
  · exact ⟨ConfigError.nonInteger key s, by simp [getIntEnv, hs, hp]⟩

lemma getIntEnv_ok_not_bad (env : String → Option String) (key : String) (v : Int)
    (h : getIntEnv env key = Except.ok v) (hb : badEnvVar env key) : False := by
  obtain ⟨err, he⟩ := getIntEnv_bad env key hb
  rw [he] at h
  exact Except.noConfusion h

lemma resolve_modern_err (env : String → Option String) (cli : Option Int)
    (hbad : badEnvVar env "OMPI_COMM_WORLD_LOCAL_RANK"
      ∨ badEnvVar env "OMPI_COMM_WORLD_RANK"
      ∨ badEnvVar env "OMPI_COMM_WORLD_SIZE") :
    ∃ err, resolve false cli env = Except.error err := by
  cases hE1 : getIntEnv env "OMPI_COMM_WORLD_LOCAL_RANK" with
  | error err1 => exact ⟨err1, by simp [resolve, hE1]⟩
  | ok l =>
    cases hE2 : getIntEnv env "OMPI_COMM_WORLD_RANK" with
    | error err2 => exact ⟨err2, by simp [resolve, hE1, hE2]⟩
    | ok g =>
      cases hE3 : getIntEnv env "OMPI_COMM_WORLD_SIZE" with
      | error err3 => exact ⟨err3, by simp [resolve, hE1, hE2, hE3]⟩
      | ok w =>
        exfalso
        rcases hbad with hb | hb | hb
        · exact getIntEnv_ok_not_bad env _ l hE1 hb
        · exact getIntEnv_ok_not_bad env _ g hE2 hb
        · exact getIntEnv_ok_not_bad env _ w hE3 hb

lemma resolve_legacy_err (env : String → Option String) (cli : Option Int)
    (hbad : badEnvVar env "RANK" ∨ badEnvVar env "WORLD_SIZE") :
    ∃ err, resolve true cli env = Except.error err := by
  cases hE1 : getIntEnv env "RANK" with
  | error err1 => exact ⟨err1, by simp [resolve, hE1]⟩
  | ok g =>
    cases hE2 : getIntEnv env "WORLD_SIZE" with
    | error err2 => exact ⟨err2, by simp [resolve, hE1, hE2]⟩
    | ok w =>
      exfalso
      rcases hbad with hb | hb
      · exact getIntEnv_ok_not_bad env _ g hE1 hb
      · exact getIntEnv_ok_not_bad env _ w hE2 hb

/-- Claim C5 (amended): `resolve` fails with a configuration error whenever
any required environment variable of the selected mode — the three
`OMPI_COMM_WORLD_*` variables in modern mode, `RANK` and `WORLD_SIZE` in
legacy mode — is absent or non-integral; and in both modes any tuple whose
components parse as integers is returned unchanged, with no range validation
performed, so out-of-range values pass through. -/
theorem c5_resolve_errors_amended (envM envL envOk : String → Option String)
    (cli clv cok : Option Int) (l g w gl wl : Int) (sl sg sw sgl swl : String)
    (hbadM : badEnvVar envM "OMPI_COMM_WORLD_LOCAL_RANK"
      ∨ badEnvVar envM "OMPI_COMM_WORLD_RANK"
      ∨ badEnvVar envM "OMPI_COMM_WORLD_SIZE")
    (hbadL : badEnvVar envL "RANK" ∨ badEnvVar envL "WORLD_SIZE")
    (h1 : envOk "OMPI_COMM_WORLD_LOCAL_RANK" = some sl) (h2 : parsePyInt sl = some l)
    (h3 : envOk "OMPI_COMM_WORLD_RANK" = some sg) (h4 : parsePyInt sg = some g)
    (h5 : envOk "OMPI_COMM_WORLD_SIZE" = some sw) (h6 : parsePyInt sw = some w)
    (h7 : envOk "RANK" = some sgl) (h8 : parsePyInt sgl = some gl)
    (h9 : envOk "WORLD_SIZE" = some swl) (h10 : parsePyInt swl = some wl) :
    (∃ err, resolve false cli envM = Except.error err)
    ∧ (∃ err, resolve true clv envL = Except.error err)
    ∧ resolve false cok envOk = Except.ok ⟨some l, g, w⟩
    ∧ resolve true cok envOk = Except.ok ⟨cok, gl, wl⟩ := by
  refine ⟨resolve_modern_err envM cli hbadM, resolve_legacy_err envL clv hbadL, ?_, ?_⟩
  · simp [resolve, getIntEnv_parsed envOk _ _ _ h1 h2, getIntEnv_parsed envOk _ _ _ h3 h4,
      getIntEnv_parsed envOk _ _ _ h5 h6]
  · simp [resolve, getIntEnv_parsed envOk _ _ _ h7 h8, getIntEnv_parsed envOk _ _ _ h9 h10]

/-- Witness for the amended C5: `envBadRank` is missing the middle modern
variable `OMPI_COMM_WORLD_RANK`, `envLegacyBad` holds the non-integral
`WORLD_SIZE` value "x", and `envAllOk` parses in both modes with the
out-of-range local rank -1 returned unchanged. -/
theorem c5_resolve_errors_amended_witness :
    badEnvVar envBadRank "OMPI_COMM_WORLD_RANK"
    ∧ badEnvVar envLegacyBad "WORLD_SIZE"
    ∧ ((∃ err, resolve false none envBadRank = Except.error err)
      ∧ (∃ err, resolve true (some 5) envLegacyBad = Except.error err)
      ∧ resolve false (some 5) envAllOk = Except.ok ⟨some (-1), 0, 1⟩
      ∧ resolve true (some 5) envAllOk = Except.ok ⟨some 5, 7, 3⟩) :=
  ⟨Or.inl rfl, Or.inr ⟨"x", rfl, rfl⟩,
   c5_resolve_errors_amended envBadRank envLegacyBad envAllOk none (some 5) (some 5)
     (-1) 0 1 7 3 "-1" "0" "1" "7" "3"
     (Or.inr (Or.inl (Or.inl rfl))) (Or.inr (Or.inr ⟨"x", rfl, rfl⟩))
     rfl rfl rfl rfl rfl rfl rfl rfl rfl rfl⟩

lemma globalValidationStat_eq (stats : List ValidationStat) (r : Nat) :
    globalValidationStat stats r
      = ((stats.map (fun st => st.lossSum)).sum,
         (stats.map (fun st => (st.sampleCount : ℚ))).sum) := by
  unfold globalValidationStat allReduceSumPair
  rw [List.map_map, List.map_map]
  rfl

/-- Claim C2: each rank's local validation pass accumulates the pair of its
batch-loss sum and batch count; the all-reduce returns the element-wise sum
of all ranks' pairs, identically on every rank; the global mean loss is the
summed loss over the summed count; and with 4 ranks each contributing
(10, 10) the aggregate is (40, 40) with mean 1. -/
theorem c2_validation_aggregation (stats : List ValidationStat) (r q : Nat)
    (batchLosses : List ℚ) :
    localValidation batchLosses = ⟨batchLosses.sum, batchLosses.length⟩
    ∧ globalValidationStat stats r
      = ((stats.map (fun st => st.lossSum)).sum,
         (stats.map (fun st => (st.sampleCount : ℚ))).sum)
    ∧ globalValidationStat stats r = globalValidationStat stats q
    ∧ globalMeanValLoss stats
      = (stats.map (fun st => st.lossSum)).sum
        / (stats.map (fun st => (st.sampleCount : ℚ))).sum
    ∧ globalValidationStat (List.replicate 4 ⟨10, 10⟩) 0 = (40, 40)
    ∧ globalMeanValLoss (List.replicate 4 ⟨10, 10⟩) = 1 := by
  refine ⟨rfl, globalValidationStat_eq stats r, rfl, ?_, ?_, ?_⟩
  · unfold globalMeanValLoss
    rw [globalValidationStat_eq]
  · rw [globalValidationStat_eq]
    norm_num [List.replicate]
  · unfold globalMeanValLoss
    rw [globalValidationStat_eq]
    norm_num [List.replicate]

/-- Claim C6: in every training step of every epoch the operations run in the
order forward/backward computation, then the gradient synchronization, then
the optimizer step: the run trace contains each step's operation block as a
contiguous segment equal to `stepOps`, whose explicit listing places
`gradientSync` after `backward` and before `optimizerStep`; and the
parameter update consumes exactly the output of `gradientSync` (the
all-reduce mean), never a raw local gradient. -/
theorem c6_step_order (E B e i : Nat) (he : e < E) (hi : i < B)
    (contribs : List ℚ) (w lr : ℚ) :
    stepOps = [TrainOp.zeroGrad, TrainOp.forward, TrainOp.lossCompute, TrainOp.backward,
      TrainOp.gradientSync, TrainOp.optimizerStep, TrainOp.scalerUpdate]
    ∧ (∃ p q, runOps E B = p ++ stepOps.map (fun op => (e, i, op)) ++ q)
    ∧ trainStepUpdate contribs w lr = optimizerStep w lr (gradientSync contribs)
    ∧ gradientSync contribs = contribs.sum / (contribs.length : ℚ) := by
  refine ⟨rfl, ?_, rfl, rfl⟩
  obtain ⟨s1, t1, h1⟩ := List.append_of_mem (List.mem_range.mpr he)
  obtain ⟨s2, t2, h2⟩ := List.append_of_mem (List.mem_range.mpr hi)
  refine ⟨(s1.flatMap fun a => (List.range B).flatMap fun b => stepOps.map fun op => (a, b, op))
      ++ (s2.flatMap fun b => stepOps.map fun op => (e, b, op)),
    (t2.flatMap fun b => stepOps.map fun op => (e, b, op))
      ++ (t1.flatMap fun a => (List.range B).flatMap fun b => stepOps.map fun op => (a, b, op)),
    ?_⟩
  rw [runOps, h1, h2]
  simp only [List.flatMap_append, List.flatMap_cons, List.append_assoc]

/-- Claim C7: every epoch's operation sequence performs the partitioner call
`sampler.set_epoch(epoch)` and the running-loss reset before any training
step is consumed; none of the epoch's coordinator operations is a barrier
(the partitioner call is local); the reset state has running loss 0; and a
rank's bookkeeping state is a function of that rank's own data only — it is
never shared across ranks. -/
theorem c7_epoch_start (rank epoch B N logging_interval : Nat)
    (f g : Fin N → List ℚ) (r : Fin N) (hfg : f r = g r) :
    (∃ c, epochPhaseOps rank epoch B
        = c ++ (List.range B).map EpochPhaseOp.trainStep
      ∧ EpochPhaseOp.setEpoch epoch ∈ c
      ∧ EpochPhaseOp.resetRunningLoss ∈ c
      ∧ ∀ k, EpochPhaseOp.trainStep k ∉ c)
    ∧ isBarrierOp (EpochPhaseOp.setEpoch epoch) = false
    ∧ (∀ op ∈ epochPhaseOps rank epoch B, isBarrierOp op = false)
    ∧ (epochInit epoch).runningLossSum = 0
    ∧ (epochInit epoch).stepCount = 0
    ∧ systemBookkeeping N logging_interval epoch f r
      = systemBookkeeping N logging_interval epoch g r := by
  refine ⟨⟨(if rank = 0 then [EpochPhaseOp.logEpochHeader] else [])
      ++ [EpochPhaseOp.setEpoch epoch, EpochPhaseOp.resetRunningLoss,
          EpochPhaseOp.startTimer], rfl, ?_, ?_, ?_⟩, rfl, ?_, rfl, rfl, ?_⟩
  · by_cases h : rank = 0 <;> simp [h]
  · by_cases h : rank = 0 <;> simp [h]
  · intro k
    by_cases h : rank = 0 <;> simp [h]
  · intro op hop
    unfold epochPhaseOps at hop
    rcases List.mem_append.mp hop with h | h
    · rcases List.mem_append.mp h with h | h
      · by_cases h0 : rank = 0
        · rw [if_pos h0] at h
          simp only [List.mem_singleton] at h
          subst h
          rfl
        · rw [if_neg h0] at h
          simp at h
      · simp only [List.mem_cons, List.not_mem_nil, or_false] at h
        rcases h with rfl | rfl | rfl <;> rfl
    · obtain ⟨k, _, rfl⟩ := List.mem_map.mp h
      rfl
  · simp only [systemBookkeeping, hfg]

/-- Witness for C7 at rank 1, epoch 0, two batches, a 2-rank system and two
data assignments that agree on rank 0. -/
theorem c7_epoch_start_witness :
    (fun j : Fin 2 => if j = 0 then [(1 : ℚ)] else [2]) 0
      = (fun j : Fin 2 => if j = 0 then [(1 : ℚ)] else [3]) 0
    ∧ ((∃ c, epochPhaseOps 1 0 2
        = c ++ (List.range 2).map EpochPhaseOp.trainStep
      ∧ EpochPhaseOp.setEpoch 0 ∈ c
      ∧ EpochPhaseOp.resetRunningLoss ∈ c
      ∧ ∀ k, EpochPhaseOp.trainStep k ∉ c)
    ∧ isBarrierOp (EpochPhaseOp.setEpoch 0) = false
    ∧ (∀ op ∈ epochPhaseOps 1 0 2, isBarrierOp op = false)
    ∧ (epochInit 0).runningLossSum = 0
    ∧ (epochInit 0).stepCount = 0
    ∧ systemBookkeeping 2 10 0 (fun j => if j = 0 then [(1 : ℚ)] else [2]) 0
      = systemBookkeeping 2 10 0 (fun j => if j = 0 then [(1 : ℚ)] else [3]) 0) :=
  ⟨rfl, c7_epoch_start 1 0 2 2 10
    (fun j => if j = 0 then [(1 : ℚ)] else [2])
    (fun j => if j = 0 then [(1 : ℚ)] else [3]) 0 rfl⟩

lemma runEpochTraining_weight_fold (rank li : Nat) (lr : ℚ)
    (batches : List (List ℚ × ℚ)) :
    ∀ a : ℚ × EpochState × List ℚ,
    (batches.foldl
      (fun acc b =>
        (trainStepUpdate b.1 acc.1 lr,
         (stepBookkeeping rank li acc.2.1 b.2).1,
         acc.2.2 ++ (stepBookkeeping rank li acc.2.1 b.2).2)) a).1
    = batches.foldl (fun w b => trainStepUpdate b.1 w lr) a.1 := by
  induction batches with
  | nil => intro a; rfl
  | cons b bs ih =>
    intro a
    rw [List.foldl_cons, List.foldl_cons]
    exact ih _

lemma runEpochTraining_skip_fold (rank li : Nat) (hr : rank ≠ 0) (lr : ℚ)
    (batches : List (List ℚ × ℚ)) :
    ∀ a : ℚ × EpochState × List ℚ,
    (batches.foldl
      (fun acc b =>
        (trainStepUpdate b.1 acc.1 lr,
         (stepBookkeeping rank li acc.2.1 b.2).1,
         acc.2.2 ++ (stepBookkeeping rank li acc.2.1 b.2).2)) a).2.1.runningLossSum
      = a.2.1.runningLossSum
    ∧ (batches.foldl
      (fun acc b =>
        (trainStepUpdate b.1 acc.1 lr,
         (stepBookkeeping rank li acc.2.1 b.2).1,
         acc.2.2 ++ (stepBookkeeping rank li acc.2.1 b.2).2)) a).2.2 = a.2.2 := by
  induction batches with
  | nil => intro a; exact ⟨rfl, rfl⟩
  | cons b bs ih =>
    intro a
    rw [List.foldl_cons]
    refine ⟨((ih _).1).trans ?_, ((ih _).2).trans ?_⟩
    · simp [stepBookkeeping, hr]
    · simp [stepBookkeeping, hr]

lemma runEpochTraining_reports_fold (li : Nat) (lr : ℚ)
    (batches : List (List ℚ × ℚ)) :
    ∀ (w : ℚ) (e i : Nat) (rl : ℚ) (logs : List ℚ),
    (batches.foldl
      (fun acc b =>
        (trainStepUpdate b.1 acc.1 lr,
         (stepBookkeeping 0 li acc.2.1 b.2).1,
         acc.2.2 ++ (stepBookkeeping 0 li acc.2.1 b.2).2))
      (w, (⟨e, rl, i⟩ : EpochState), logs)).2.2
    = logs ++ (List.range batches.length).filterMap (fun j =>
        if (i + j) % li = li - 1 then
          some ((rl + ((batches.map Prod.snd).take (j + 1)).sum)
            / ((i : ℚ) + (j : ℚ) + 1))
        else none) := by
  induction batches with
  | nil => intro w e i rl logs; simp
  | cons b bs ih =>
    intro w e i rl logs
    simp only [List.foldl_cons]
    have hsb : stepBookkeeping 0 li ⟨e, rl, i⟩ b.2
        = (⟨e, rl + b.2, i + 1⟩,
           if i % li = li - 1 then [(rl + b.2) / ((i : ℚ) + 1)] else []) := by
      simp [stepBookkeeping]
    simp only [hsb]
    rw [ih]
    rw [List.length_cons, List.range_succ_eq_map]
    have htail :
        (List.range bs.length).filterMap ((fun j =>
          if (i + j) % li = li - 1 then
            some ((rl + (((b :: bs).map Prod.snd).take (j + 1)).sum)
              / ((i : ℚ) + (j : ℚ) + 1))
          else none) ∘ Nat.succ)
        = (List.range bs.length).filterMap (fun j =>
          if (i + 1 + j) % li = li - 1 then
            some ((rl + b.2 + ((bs.map Prod.snd).take (j + 1)).sum)
              / (((i + 1 : Nat) : ℚ) + (j : ℚ) + 1))
          else none) := by
      apply List.filterMap_congr
      intro j hj
      have hm : i + Nat.succ j = i + 1 + j := by omega
      simp only [Function.comp_apply, hm]
      by_cases hc2 : (i + 1 + j) % li = li - 1
      · rw [if_pos hc2, if_pos hc2]
        congr 1
        simp only [List.map_cons, List.take_succ_cons, List.sum_cons]
        push_cast
        ring
      · rw [if_neg hc2, if_neg hc2]
    by_cases hc : i % li = li - 1
    · rw [if_pos hc]
      simp only [List.filterMap_cons, List.filterMap_map]
      rw [htail]
      simp [hc, List.append_assoc]
    · rw [if_neg hc]
      simp only [List.filterMap_cons, List.filterMap_map]
      rw [htail]
      simp [hc]

/-- Claim C8: during training only rank 0 accumulates the running loss and
emits a progress report (the running average) at every step index `i` with
`i % loggingInterval = loggingInterval - 1`; every other rank keeps a zero
running loss and emits nothing; and the parameter trajectory is the same pure
function of the synchronized gradients on every rank — the skipped
bookkeeping changes no other training state. -/
theorem c8_rank0_logging (rank logging_interval : Nat) (lr w0 : ℚ) (epoch : Nat)
    (batches : List (List ℚ × ℚ)) (hr : rank ≠ 0) :
    (runEpochTraining rank logging_interval lr w0 epoch batches).1
      = (runEpochTraining 0 logging_interval lr w0 epoch batches).1
    ∧ (runEpochTraining rank logging_interval lr w0 epoch batches).1
      = batches.foldl (fun w b => trainStepUpdate b.1 w lr) w0
    ∧ (runEpochTraining rank logging_interval lr w0 epoch batches).2.1.runningLossSum = 0
    ∧ (runEpochTraining rank logging_interval lr w0 epoch batches).2.2 = []
    ∧ (runEpochTraining 0 logging_interval lr w0 epoch batches).2.2
      = expectedReports logging_interval (batches.map Prod.snd) := by
  have hw : ∀ rk : Nat, (runEpochTraining rk logging_interval lr w0 epoch batches).1
      = batches.foldl (fun w b => trainStepUpdate b.1 w lr) w0 := by
    intro rk
    exact runEpochTraining_weight_fold rk logging_interval lr batches _
  refine ⟨(hw rank).trans (hw 0).symm, hw rank, ?_, ?_, ?_⟩
  · exact (runEpochTraining_skip_fold rank logging_interval hr lr batches _).1
  · exact (runEpochTraining_skip_fold rank logging_interval hr lr batches _).2
  · unfold runEpochTraining
    have hinit : (w0, epochInit epoch, ([] : List ℚ))
        = (w0, (⟨epoch, 0, 0⟩ : EpochState), ([] : List ℚ)) := rfl
    rw [hinit, runEpochTraining_reports_fold]
    rw [List.nil_append]
    unfold expectedReports
    rw [List.length_map]
    apply List.filterMap_congr
    intro j hj
    norm_num

/-- Witness for C8 at rank 3, logging interval 2, two concrete batches. -/
theorem c8_rank0_logging_witness :
    (3 : Nat) ≠ 0
    ∧ ((runEpochTraining 3 2 1 0 0 [([2, 4], 1), ([6, 2], 5)]).1
        = (runEpochTraining 0 2 1 0 0 [([2, 4], 1), ([6, 2], 5)]).1
      ∧ (runEpochTraining 3 2 1 0 0 [([2, 4], 1), ([6, 2], 5)]).1
        = [([(2 : ℚ), 4], (1 : ℚ)), ([6, 2], 5)].foldl
            (fun w b => trainStepUpdate b.1 w 1) 0
      ∧ (runEpochTraining 3 2 1 0 0 [([2, 4], 1), ([6, 2], 5)]).2.1.runningLossSum = 0
      ∧ (runEpochTraining 3 2 1 0 0 [([2, 4], 1), ([6, 2], 5)]).2.2 = []
      ∧ (runEpochTraining 0 2 1 0 0 [([2, 4], 1), ([6, 2], 5)]).2.2
        = expectedReports 2 ([([(2 : ℚ), 4], (1 : ℚ)), ([6, 2], 5)].map Prod.snd)) :=
  ⟨by decide, c8_rank0_logging 3 2 1 0 0 [([2, 4], 1), ([6, 2], 5)] (by decide)⟩

lemma update_le_pt (pcs : Nat → Nat) (q s : Nat) :
    pcs s ≤ Function.update pcs q (pcs q + 1) s := by
  by_cases h : s = q
  · subst h
    rw [Function.update_same]
    exact Nat.le_succ _
  · rw [Function.update_noteq h]

lemma finalizeProg_barrier_get (r : Nat) (h : barrierIdx r < (finalizeProg r).length) :
    (finalizeProg r).get ⟨barrierIdx r, h⟩ = FinAction.barrier := by
  cases r with
  | zero => rfl
  | succ n => rfl

lemma finReachable_inv (N : Nat) (pcs : Nat → Nat) (h : FinReachable N pcs) :
    FinInv N pcs := by
  induction h with
  | init =>
    intro r hr hbar
    exact absurd hbar (Nat.not_lt_zero _)
  | step pcs1 pcs2 hre hstep ih =>
    cases hstep with
    | advance q hq hlt hbarg =>
      intro r hr hbar2 s hs
      by_cases hold : barrierIdx r < pcs1 r
      · exact le_trans (ih r hr hold s hs) (update_le_pt pcs1 q s)
      · have hrq : r = q := by
          by_contra hne
          rw [Function.update_noteq hne] at hbar2
          exact hold hbar2
        subst hrq
        rw [Function.update_same] at hbar2
        have heq : pcs1 r = barrierIdx r := by omega
        have hact : (finalizeProg r).get ⟨pcs1 r, hlt⟩ = FinAction.barrier := by
          simp only [heq]
          exact finalizeProg_barrier_get r (heq ▸ hlt)
        exact le_trans (hbarg hact s hs) (update_le_pt pcs1 r s)

lemma saveDone_of_pos (pcs : Nat → Nat) (h : 1 ≤ pcs 0) : saveDone pcs := by
  unfold saveDone
  obtain ⟨m, hm⟩ : ∃ m, pcs 0 = m + 1 := ⟨pcs 0 - 1, by omega⟩
  rw [hm]
  exact List.mem_cons_self _ _

lemma totalSaves_one (N : Nat) (h : 1 ≤ N) : totalSaves N = 1 := by
  obtain ⟨m, rfl⟩ : ∃ m, N = m + 1 := ⟨N - 1, by omega⟩
  unfold totalSaves
  rw [List.range_succ_eq_map, List.map_cons, List.map_map, List.sum_cons]
  have h0 : (finalizeProg 0).count FinAction.save = 1 := rfl
  rw [h0]
  have hz : ((List.range m).map
      ((fun r => (finalizeProg r).count FinAction.save) ∘ Nat.succ)).sum = 0 := by
    apply List.sum_eq_zero
    intro x hx
    obtain ⟨j, hj, hjx⟩ := List.mem_map.mp hx
    rw [← hjx]
    rfl
  rw [hz]

/-- Claim C1: for any run with worldSize N ≥ 1, exactly one save action
exists system-wide in the finalize phase (rank 0's program contains it, every
other rank's contains none, and it targets the well-known filename inside the
output path); and in every reachable configuration of the barrier semantics,
any rank that has returned from its barrier — and hence any rank that runs
the subsequent teardown or exits — can only do so after rank 0 has executed
the save. -/
theorem c1_checkpoint_handshake (N : Nat) (hN : 1 ≤ N) :
    totalSaves N = 1
    ∧ (finalizeProg 0).count FinAction.save = 1
    ∧ (∀ r, r ≠ 0 → (finalizeProg r).count FinAction.save = 0)
    ∧ model_filepath "./models" = "./models/model.pth"
    ∧ (∀ pcs, FinReachable N pcs → ∀ r, r < N → barrierIdx r < pcs r →
        saveDone pcs) := by
  refine ⟨totalSaves_one N hN, rfl, ?_, rfl, ?_⟩
  · intro r hr
    cases r with
    | zero => exact absurd rfl hr
    | succ n => rfl
  · intro pcs hre r hr hbar
    have hinv := finReachable_inv N pcs hre
    have h0 : barrierIdx 0 ≤ pcs 0 := hinv r hr hbar 0 (by omega)
    apply saveDone_of_pos
    have hb0 : barrierIdx 0 = 2 := rfl
    omega

/-- Witness for C1 at the concrete world size 4. -/
theorem c1_checkpoint_handshake_witness :
    (1 : Nat) ≤ 4
    ∧ (totalSaves 4 = 1
      ∧ (finalizeProg 0).count FinAction.save = 1
      ∧ (∀ r, r ≠ 0 → (finalizeProg r).count FinAction.save = 0)
      ∧ model_filepath "./models" = "./models/model.pth"
      ∧ (∀ pcs, FinReachable 4 pcs → ∀ r, r < 4 → barrierIdx r < pcs r →
          saveDone pcs)) :=
  ⟨by decide, c1_checkpoint_handshake 4 (by decide)⟩

/-- Witness for C6 at epoch 1 of 2, step 2 of 3, with concrete gradient
contributions. -/
theorem c6_step_order_witness :
    (1 : Nat) < 2 ∧ (2 : Nat) < 3
    ∧ (stepOps = [TrainOp.zeroGrad, TrainOp.forward, TrainOp.lossCompute,
        TrainOp.backward, TrainOp.gradientSync, TrainOp.optimizerStep,
        TrainOp.scalerUpdate]
      ∧ (∃ p q, runOps 2 3 = p ++ stepOps.map (fun op => (1, 2, op)) ++ q)
      ∧ trainStepUpdate [1, 3] 5 2 = optimizerStep 5 2 (gradientSync [1, 3])
      ∧ gradientSync [1, 3] = ([(1 : ℚ), 3].sum) / (([(1 : ℚ), 3].length : ℚ))) :=
  ⟨by decide, by decide, c6_step_order 2 3 1 2 (by decide) (by decide) [1, 3] 5 2⟩
